import Mathlib

/-!
Verification of the growing-segment core (`segcore/SegmentGrowingImpl.cpp`) and the
DiskANN index lifecycle manager (`index/VectorDiskIndex.cpp`) of the milvus vector
database, via a shallow embedding of the relevant routines.

Conventions:
* machine integers are modelled as `Nat`/`Int`, with an explicit `% 2^32` where the
  source performs 32-bit arithmetic;
* fallible paths (`AssertInfo`/`PanicInfo`) are modelled with `Option`/product results;
* opaque collaborators (the knowhere engine, the chunk manager) enter as parameters;
* routines of the repository that are declared but not implemented in the two source
  files (e.g. `get_deleted_bitmap`) are modelled from the specification and marked so.
-/

namespace Milvus

/-- Timestamps are `uint64` values (opaque monotonic versions); modelled as naturals. -/
abbrev Timestamp := Nat

/-- `PkType` is `std::variant<int64_t, std::string>`: an int64 or a string primary key. -/
abbrev PkType := Int ⊕ String

/-- `std::variant` comparison: by alternative index first, then by the held value.
This is the order used by `std::sort` on `std::tuple<Timestamp, PkType>` in `Delete`. -/
def pkLeB : PkType → PkType → Bool
  | .inl a, .inl b => decide (a ≤ b)
  | .inl _, .inr _ => true
  | .inr _, .inl _ => false
  | .inr a, .inr b => decide (a ≤ b)

/-- Lexicographic comparison on `(timestamp, pk)` tuples, as `std::sort` uses on
`std::tuple<Timestamp, PkType>`. -/
def tsPkLeB : Timestamp × PkType → Timestamp × PkType → Bool
  | (t1, p1), (t2, p2) => if t1 = t2 then pkLeB p1 p2 else decide (t1 < t2)

/-- Return status of segcore calls (`SegcoreError`); `Delete` only ever returns
`SegcoreError::success()`. -/
inductive SegcoreError where
  | success
  | err (code : Nat)
deriving DecidableEq, Repr

/-- The segment state visible to the deletion path: the PK-index membership test
(`insert_record_.contain`), the per-offset primary key and insert timestamp
(`insert_record_` columns, used by the deletion bitmap), and the deletion log
(`deleted_record_`), kept in push order. -/
structure SegState where
  contain : PkType → Bool
  insertPk : Nat → PkType
  insertTs : Nat → Timestamp
  deleted : List (Timestamp × PkType)

/-- Embedding of `SegmentGrowingImpl::Delete` (SegmentGrowingImpl.cpp:351-395).
`pks` stands for the primary keys parsed from the `IdArray` by `ParsePksFromIDs`
(parsing lives outside the two source files); `tss` is `timestamps_raw`.
The source builds `ordering[i] = (timestamps_raw[i], pks[i])`, removes entries whose
pk is not contained in the PK index (`std::remove_if`, stable), returns success if
nothing survives, otherwise sorts the survivors and appends them to
`deleted_record_` via `push`. -/
def Delete (s : SegState) (pks : List PkType) (tss : List Timestamp) :
    SegcoreError × SegState :=
  let ordering := tss.zip pks
  let kept := ordering.filter fun r => s.contain r.2
  if kept.length = 0 then
    (.success, s)
  else
    (.success, { s with deleted := s.deleted ++ kept.mergeSort tsPkLeB })

/-- `INVALID_SEG_OFFSET` (common/Consts.h): the sentinel segment offset `-1`. -/
def INVALID_SEG_OFFSET : Int := -1

/-- The reservation cursor of `InsertRecord` (`insert_record_.reserved`, an atomic
int64 counter; offsets are dense non-negative row indices, modelled as naturals). -/
structure InsertReserve where
  reserved : Nat

/-- Embedding of `SegmentGrowingImpl::PreInsert` (SegmentGrowingImpl.cpp:41-45):
`reserved.fetch_add(size)` — returns the prior cursor value and advances it by
`size`. -/
def PreInsert (s : InsertReserve) (size : Nat) : Nat × InsertReserve :=
  (s.reserved, { reserved := s.reserved + size })

/-- Modelled from the spec: `get_barrier(deleted_record, ts)` is declared in
`segcore/Utils.h` and implemented outside the two source files; per spec §4.4
(`barrier(ts) -> n`), it is the number of deletion-log entries with timestamp
`≤ ts`. -/
def get_barrier (deleted : List (Timestamp × PkType)) (ts : Timestamp) : Nat :=
  (deleted.filter fun e => e.1 ≤ ts).length

/-- Modelled from the spec: `get_deleted_bitmap` lives in `segcore/Utils.cpp`, outside
the two source files; per spec §4.4 (`bitmap_at`), it is a bitmap of length
`ins_barrier` whose bit `i` is set iff some log entry `(ts_j, pk_j)` with
`j < del_barrier` has `pk_j = pk(offset i)`, `ts_j ≥ insert_ts(i)`, and
`insert_ts(i) ≤ ts`. -/
def get_deleted_bitmap (del_barrier ins_barrier : Nat)
    (deleted : List (Timestamp × PkType)) (insertPk : Nat → PkType)
    (insertTs : Nat → Timestamp) (ts : Timestamp) : List Bool :=
  (List.range ins_barrier).map fun i =>
    decide (insertTs i ≤ ts) &&
      (deleted.take del_barrier).any fun e =>
        decide (e.2 = insertPk i) && decide (insertTs i ≤ e.1)

/-- Embedding of `SegmentGrowingImpl::mask_with_delete` (SegmentGrowingImpl.cpp:47-68):
returns early when `del_barrier = 0`; otherwise builds the deletion bitmap, asserts
its size equals the caller's bitset size (`AssertInfo`, modelled as `none` on
failure), and OR-composes it into the bitset. -/
def mask_with_delete (s : SegState) (bitset : List Bool) (ins_barrier : Nat)
    (ts : Timestamp) : Option (List Bool) :=
  if get_barrier s.deleted ts = 0 then
    some bitset
  else if (get_deleted_bitmap (get_barrier s.deleted ts) ins_barrier s.deleted
      s.insertPk s.insertTs ts).length = bitset.length then
    some (bitset.zipWith (fun a b => a || b)
      (get_deleted_bitmap (get_barrier s.deleted ts) ins_barrier s.deleted
        s.insertPk s.insertTs ts))
  else
    none

/-- Embedding of the vector-field `bulk_subscript_impl` chunk-copy path
(SegmentGrowingImpl.cpp:634-646): each slot holds `element_sizeof` bytes; an offset
equal to `INVALID_SEG_OFFSET` is `memset` to zero, otherwise `element_sizeof` bytes
are `memcpy`ed from `vec.get_element(offset)`. `vec` is the memory-access function of
the `ConcurrentVector`, giving the bytes stored at an offset. -/
def bulk_subscript_vec_chunk (element_sizeof : Nat) (vec : Int → List Nat)
    (seg_offsets : List Int) : List (List Nat) :=
  seg_offsets.map fun o =>
    if o = INVALID_SEG_OFFSET then List.replicate element_sizeof 0
    else (vec o).take element_sizeof

/-- Embedding of the scalar `bulk_subscript_impl` (SegmentGrowingImpl.cpp:662-676):
`output[i] = vec[seg_offsets[i]]`, with no check of `INVALID_SEG_OFFSET`. `vec` is
the memory-access function of `ConcurrentVector<S>::operator[]`; at offset `-1` it
yields whatever the out-of-range read happens to return. -/
def bulk_subscript_scalar {α : Type} (vec : Int → α) (seg_offsets : List Int) :
    List α :=
  seg_offsets.map fun o => vec o

/-- Embedding of `bulk_subscript_ptr_impl` (SegmentGrowingImpl.cpp:606-619, the
varchar/json path): `dst[i] = src[seg_offsets[i]]`, again with no
`INVALID_SEG_OFFSET` check. -/
def bulk_subscript_ptr {α : Type} (src : Int → α) (seg_offsets : List Int) :
    List α :=
  seg_offsets.map fun o => src o

/-- Embedding of `bulk_subscript_array_impl` (SegmentGrowingImpl.cpp:678-694): slot
`i` is overwritten with `vec[offset].output_data()` only when
`offset ≠ INVALID_SEG_OFFSET`; otherwise the pre-created destination entry `dst0[i]`
(a default-constructed array, created by `CreateScalarDataArray`) is kept. -/
def bulk_subscript_array {α : Type} (vec : Int → α) (seg_offsets : List Int)
    (dst0 : List α) : List α :=
  (seg_offsets.zip dst0).map fun p =>
    if p.1 ≠ INVALID_SEG_OFFSET then vec p.1 else p.2

/-- Per-field state of a float-vector field inside the growing segment, as seen by
`try_remove_chunks`: the number of rows inserted for the field, the index-sync
watermark (rows absorbed by the interim index), the chunks currently held by the
field's `ConcurrentVector` (as `[begin, end)` row intervals), and a ghost log of
release events `(watermark, rows, released intervals)` recorded at the moment of
each `clear()`. -/
structure GField where
  rows : Nat
  watermark : Nat
  chunks : List (Nat × Nat)
  releases : List (Nat × Nat × List (Nat × Nat))
deriving DecidableEq, Repr

/-- Modelled from the spec: `IndexingRecord::SyncDataWithIndex` is implemented
outside the two source files; per spec §3/§4.6 a field is index-synced when the
sync watermark has caught up with every inserted row, so that chunk release is
safe and the index can serve bulk reads. -/
def SyncDataWithIndex (f : GField) : Bool := decide (f.rows ≤ f.watermark)

/-- Embedding of `SegmentGrowingImpl::try_remove_chunks` (SegmentGrowingImpl.cpp:70-83):
when the field is index-synced, its `ConcurrentVector` holds at least one chunk, and
the non-blocking `chunk_mutex_.try_lock()` succeeds (`lockOk`), all chunks are
cleared; otherwise nothing changes. The ghost `releases` log records the watermark,
the row count and the released intervals at the moment of the clear. -/
def try_remove_chunks (lockOk : Bool) (f : GField) : GField :=
  if SyncDataWithIndex f && !f.chunks.isEmpty && lockOk then
    { f with chunks := [],
             releases := f.releases ++ [(f.watermark, f.rows, f.chunks)] }
  else f

/-- The per-field effect of one `Insert` batch (SegmentGrowingImpl.cpp:114-149) on a
float-vector field: when the field is not yet index-synced, the batch's rows
`[rows, rows + n)` are appended to the `ConcurrentVector` (`set_data_raw`); then
`AppendingIndex` may advance the watermark to some `w'` (the interim builder batches
internally); finally `try_remove_chunks` runs. -/
def insertStep (n w' : Nat) (lockOk : Bool) (f : GField) : GField :=
  try_remove_chunks lockOk
    { rows := f.rows + n
      watermark := w'
      chunks := if SyncDataWithIndex f then f.chunks
                else f.chunks ++ [(f.rows, f.rows + n)]
      releases := f.releases }

/-- One step of the per-field lifecycle: an `Insert` batch or a standalone
`try_remove_chunks` (as invoked from `LoadFieldData`). `hw1` says the watermark is
monotone; `hw2` says `AppendingIndex` never indexes rows that were not inserted. -/
inductive GStep : GField → GField → Prop
  | insert (n w' : Nat) (lockOk : Bool) (f : GField)
      (hw1 : f.watermark ≤ w') (hw2 : w' ≤ f.rows + n) :
      GStep f (insertStep n w' lockOk f)
  | tryRemove (lockOk : Bool) (f : GField) : GStep f (try_remove_chunks lockOk f)

/-- A freshly created field: no rows, watermark zero, no chunks, nothing released. -/
def GField.init : GField := ⟨0, 0, [], []⟩

/-- The field states reachable from creation. -/
def GReachable : GField → Prop := Relation.ReflTransGen GStep GField.init

/-- The C6 invariant: present chunks lie below the row count, and every recorded
release happened while the field was index-synced (row count at release ≤ watermark
at release) with every released chunk fully below the watermark at release. -/
def GInv (f : GField) : Prop :=
  (∀ iv ∈ f.chunks, iv.2 ≤ f.rows) ∧
  (∀ e ∈ f.releases, e.2.1 ≤ e.1 ∧ ∀ iv ∈ e.2.2, iv.2 ≤ e.1)

/-- The status returned by the opaque knowhere engine's `Build`. -/
inductive KnowhereStatus where
  | success
  | notSuccess (code : Nat)
deriving DecidableEq, Repr

/-- The milvus error codes surfaced by `PanicInfo` in the two source files. -/
inductive MilvusErrorCode where
  | IndexBuildError
  | UnexpectedError
deriving DecidableEq, Repr

/-- Local scratch state of the DiskANN file manager: whether the staged raw-data
directory of the segment exists, and the byte content of the staged `raw_data`
file. -/
structure LocalScratch where
  rawDataDirPresent : Bool
  rawDataFile : List Nat
deriving DecidableEq, Repr

/-- The four little-endian bytes of a `uint32` value — the in-memory representation
that `ChunkManager::Write(path, offset, &num, sizeof(num))` stores on the
little-endian targets milvus builds for. -/
def le32 (n : Nat) : List Nat :=
  [n % 256, n / 256 % 256, n / 2 ^ 16 % 256, n / 2 ^ 24 % 256]

/-- Embedding of the raw-data staging writes of `BuildWithDataset`
(VectorDiskIndex.cpp:292-303): `num = uint32_t(GetDatasetRows)` is written at byte
offset 0, `dim = uint32_t(GetDatasetDim)` at byte offset 4, then
`data_size = num * dim * sizeof(T)` bytes of the dataset tensor at byte offset 8 —
where `num * dim` is a `uint32 * uint32` product, i.e. taken mod `2^32`, before the
`size_t` multiplication by `sizeof(T)`. `tensor` is the dataset's contiguous byte
buffer. -/
def stageRawData (sizeofT rows dim : Nat) (tensor : List Nat) : List Nat :=
  le32 (rows % 2 ^ 32) ++ le32 (dim % 2 ^ 32) ++
    tensor.take ((rows % 2 ^ 32) * (dim % 2 ^ 32) % 2 ^ 32 * sizeofT)

/-- Embedding of `VectorDiskAnnIndex<T>::Build` (VectorDiskIndex.cpp:213-258),
abstracted over the opaque engine's build outcome: `CacheRawDataToDisk` stages the
raw data (the raw-data directory exists afterwards); on engine failure the call
panics with `IndexBuildError`, leaving the scratch in place; on success it removes
the staged raw-data directory. Returns the surfaced error (if any) together with
the scratch state after the call. -/
def Build (engineBuild : KnowhereStatus) (fs : LocalScratch) :
    Option MilvusErrorCode × LocalScratch :=
  let staged := { fs with rawDataDirPresent := true }
  if engineBuild = .success then
    (none, { staged with rawDataDirPresent := false, rawDataFile := [] })
  else
    (some .IndexBuildError, staged)

/-- Embedding of `VectorDiskAnnIndex<T>::BuildV2` (VectorDiskIndex.cpp:174-211): the
return status of `index_.Build` is discarded — no status check follows the call —
so no error is ever surfaced and the staged raw-data directory is removed
unconditionally. -/
def BuildV2 (engineBuild : KnowhereStatus) (fs : LocalScratch) :
    Option MilvusErrorCode × LocalScratch :=
  let staged := { fs with rawDataDirPresent := true }
  (none, { staged with rawDataDirPresent := false, rawDataFile := [] })

/-- Embedding of `VectorDiskAnnIndex<T>::BuildWithDataset`
(VectorDiskIndex.cpp:260-314): stages the `raw_data` file (header + body, see
`stageRawData`), invokes the engine's build, panics with `IndexBuildError` on
failure (scratch left in place), and removes the staged raw-data directory on
success. -/
def BuildWithDataset (engineBuild : KnowhereStatus) (sizeofT rows dim : Nat)
    (tensor : List Nat) (fs : LocalScratch) :
    Option MilvusErrorCode × LocalScratch :=
  let staged : LocalScratch :=
    { rawDataDirPresent := true
      rawDataFile := stageRawData sizeofT rows dim tensor }
  if engineBuild = .success then
    (none, { staged with rawDataDirPresent := false, rawDataFile := [] })
  else
    (some .IndexBuildError, staged)

/-- `std::round(x * multiplier) / multiplier` for one distance, under exact
arithmetic (the C++ operates on IEEE floats; distances are modelled as rationals). -/
def roundDist (multiplier : ℚ) (x : ℚ) : ℚ :=
  (round (x * multiplier) : ℚ) / multiplier

/-- The in-place rounding loop of `Query` (VectorDiskIndex.cpp:390-395):
`for (i in [0, total)) distances[i] = round(distances[i] * multiplier) / multiplier`,
as a sequential buffer update. -/
def roundLoop (multiplier : ℚ) : Nat → (Nat → ℚ) → (Nat → ℚ)
  | 0, buf => buf
  | n + 1, buf =>
    fun i => if i = n then roundDist multiplier (roundLoop multiplier n buf n)
             else roundLoop multiplier n buf i

/-- The fields of `SearchResult` filled in by `Query`. -/
structure SearchResultM where
  seg_offsets : List Int
  distances : List ℚ
  total_nq : Nat
  unity_topK : Nat

/-- Embedding of the result-assembly tail of `VectorDiskAnnIndex<T>::Query`
(VectorDiskIndex.cpp:383-402), abstracted over the engine reply: `ids` and
`distances` are the engine's result buffers, `total_num = num_queries * topk`;
when `round_decimal != -1` every distance in `[0, total_num)` is rounded in place
with `multiplier = pow(10.0, round_decimal)`, then `total_num` ids and distances
are copied out (`std::copy_n`). -/
def QueryResult (round_decimal : Int) (num_queries topk : Nat)
    (ids : Nat → Int) (distances : Nat → ℚ) : SearchResultM :=
  let total_num := num_queries * topk
  let distances2 :=
    if round_decimal ≠ -1 then
      roundLoop ((10 : ℚ) ^ round_decimal) total_num distances
    else distances
  { seg_offsets := (List.range total_num).map ids
    distances := (List.range total_num).map distances2
    total_nq := num_queries
    unity_topK := topk }

/-- Embedding of `VectorDiskAnnIndex<T>::GetVector` (VectorDiskIndex.cpp:419-443),
abstracted over the engine's `GetVectorByIds` reply `(row_num, dim, tensor)`:
a failed expected (`none`) panics with `UnexpectedError`; otherwise the returned
buffer holds `dim / 8 * row_num` bytes when the index type is in the binary list
and `dim * row_num * sizeof(float)` bytes otherwise, `memcpy`ed from the reply's
tensor. `sizeofT` is the element size of the template instantiation `T` (explicit
instantiations: float, float16, bfloat16); the source never uses it in the size
computation. -/
def GetVector (isInBinList : Bool) (sizeofT : Nat)
    (reply : Option (Nat × Nat × (Nat → Nat))) :
    Except MilvusErrorCode (List Nat) :=
  match reply with
  | none => .error .UnexpectedError
  | some (row_num, dim, tensor) =>
    .ok ((List.range (if isInBinList then dim / 8 * row_num
        else dim * row_num * 4)).map tensor)

theorem pkLeB_trans (a b c : PkType) : pkLeB a b → pkLeB b c → pkLeB a c := by
  rcases a with a | a <;> rcases b with b | b <;> rcases c with c | c <;>
    simp [pkLeB] <;> exact fun h1 h2 => le_trans h1 h2

theorem pkLeB_total (a b : PkType) : pkLeB a b || pkLeB b a := by
  rcases a with a | a <;> rcases b with b | b <;> simp only [pkLeB]
  · rcases le_total a b with h | h
    · rw [decide_eq_true h]; rfl
    · rw [decide_eq_true h, Bool.or_true]
  · rfl
  · rfl
  · rcases le_total a b with h | h
    · rw [decide_eq_true h]; rfl
    · rw [decide_eq_true h, Bool.or_true]

theorem tsPkLeB_trans (a b c : Timestamp × PkType) :
    tsPkLeB a b → tsPkLeB b c → tsPkLeB a c := by
  rcases a with ⟨t1, p1⟩; rcases b with ⟨t2, p2⟩; rcases c with ⟨t3, p3⟩
  simp only [tsPkLeB]
  intro h1 h2
  by_cases e12 : t1 = t2
  · subst e12
    by_cases e23 : t1 = t3
    · subst e23
      rw [if_pos rfl] at h1 h2 ⊢
      exact pkLeB_trans _ _ _ h1 h2
    · rw [if_neg e23] at h2 ⊢
      exact h2
  · by_cases e23 : t2 = t3
    · subst e23
      rw [if_neg e12] at h1 ⊢
      exact h1
    · rw [if_neg e12] at h1
      rw [if_neg e23] at h2
      have l1 : t1 < t2 := of_decide_eq_true h1
      have l2 : t2 < t3 := of_decide_eq_true h2
      have l13 : t1 < t3 := lt_trans l1 l2
      rw [if_neg (Nat.ne_of_lt l13)]
      exact decide_eq_true l13

theorem tsPkLeB_total (a b : Timestamp × PkType) : tsPkLeB a b || tsPkLeB b a := by
  rcases a with ⟨t1, p1⟩; rcases b with ⟨t2, p2⟩
  simp only [tsPkLeB]
  by_cases h : t1 = t2
  · subst h
    rw [if_pos rfl, if_pos rfl]
    exact pkLeB_total p1 p2
  · rw [if_neg h, if_neg (Ne.symm h)]
    rcases Nat.lt_or_ge t1 t2 with hl | hl
    · rw [decide_eq_true hl]; rfl
    · have hgt : t2 < t1 := lt_of_le_of_ne hl fun e => h e.symm
      rw [decide_eq_true hgt, Bool.or_true]

/-- C1: `Delete` drops the `(ts, pk)` pairs whose primary key is not contained in the
PK index, appends the surviving pairs to `DeletedRecord` in sorted order (the appended
block is sorted by `(ts, pk)` and is a permutation of the surviving pairs), and
returns success; when no primary key of the batch was ever inserted, the segment state
(in particular `DeletedRecord`) is unchanged and no error is returned. -/
theorem delete_drops_missing_pks_sorts_and_appends
    (s : SegState) (pks : List PkType) (tss : List Timestamp)
    (hlen : tss.length = pks.length) :
    (Delete s pks tss).1 = .success ∧
    (Delete s pks tss).2.deleted =
      s.deleted ++ ((tss.zip pks).filter fun r => s.contain r.2).mergeSort tsPkLeB ∧
    (((tss.zip pks).filter fun r => s.contain r.2).mergeSort tsPkLeB).Pairwise
      (fun a b => tsPkLeB a b) ∧
    (((tss.zip pks).filter fun r => s.contain r.2).mergeSort tsPkLeB).Perm
      ((tss.zip pks).filter fun r => s.contain r.2) ∧
    ((∀ pk ∈ pks, s.contain pk = false) → (Delete s pks tss).2 = s) :=
  by
  refine ⟨?_, ?_, ?_, ?_, ?_⟩
  · simp only [Delete]
    split <;> rfl
  · simp only [Delete]
    split
    · next h =>
      rw [List.length_eq_zero] at h
      simp [h]
    · rfl
  · exact List.sorted_mergeSort tsPkLeB_trans tsPkLeB_total _
  · exact List.mergeSort_perm _ _
  · intro hnone
    have hkept : ((tss.zip pks).filter fun r => s.contain r.2) = [] := by
      rw [List.filter_eq_nil_iff]
      intro a ha
      have : a.2 ∈ pks := (List.of_mem_zip ha).2
      simp [hnone a.2 this]
    simp only [Delete, hkept]
    rfl

/-- Witness for C1 at a concrete input: a batch whose two primary keys were never
inserted leaves the state unchanged and returns success. -/
theorem delete_drops_missing_pks_sorts_and_appends_witness :
    (Delete ⟨fun _ => false, fun _ => .inl 0, fun _ => 0, []⟩
        [.inl 99, .inr "k"] [5, 6]).2 =
      ⟨fun _ => false, fun _ => .inl 0, fun _ => 0, []⟩ ∧
    (Delete ⟨fun _ => false, fun _ => .inl 0, fun _ => 0, []⟩
        [.inl 99, .inr "k"] [5, 6]).1 = .success := by
  refine ⟨?_, ?_⟩
  · exact (delete_drops_missing_pks_sorts_and_appends
      ⟨fun _ => false, fun _ => .inl 0, fun _ => 0, []⟩
      [.inl 99, .inr "k"] [5, 6] (by decide)).2.2.2.2 (by intro pk _; rfl)
  · exact (delete_drops_missing_pks_sorts_and_appends
      ⟨fun _ => false, fun _ => .inl 0, fun _ => 0, []⟩
      [.inl 99, .inr "k"] [5, 6] (by decide)).1

/-- C5: `PreInsert(n)` returns the prior value of the reservation cursor and advances
it by exactly `n`; two successive calls `r1 = PreInsert(a)`, `r2 = PreInsert(b)` yield
disjoint intervals `[r1, r1+a)` and `[r2, r2+b)` whose union is the contiguous range
`[r1, r1+a+b)`. -/
theorem preinsert_returns_old_cursor_and_reserves_disjoint_ranges
    (s : InsertReserve) (a b : Nat) :
    (PreInsert s a).1 = s.reserved ∧
    (PreInsert s a).2.reserved = s.reserved + a ∧
    (PreInsert (PreInsert s a).2 b).1 = s.reserved + a ∧
    (∀ x : Nat,
      ¬(((PreInsert s a).1 ≤ x ∧ x < (PreInsert s a).1 + a) ∧
        ((PreInsert (PreInsert s a).2 b).1 ≤ x ∧
          x < (PreInsert (PreInsert s a).2 b).1 + b))) ∧
    (∀ x : Nat,
      ((((PreInsert s a).1 ≤ x ∧ x < (PreInsert s a).1 + a) ∨
        ((PreInsert (PreInsert s a).2 b).1 ≤ x ∧
          x < (PreInsert (PreInsert s a).2 b).1 + b)) ↔
        ((PreInsert s a).1 ≤ x ∧ x < (PreInsert s a).1 + a + b))) := by
  have e1 : (PreInsert s a).1 = s.reserved := rfl
  have e3 : (PreInsert (PreInsert s a).2 b).1 = s.reserved + a := rfl
  refine ⟨e1, rfl, e3, fun x => ?_, fun x => ?_⟩ <;> rw [e1, e3] <;> omega

/-- Witness for C5 at a concrete input: starting from cursor 5, `PreInsert 2`
returns 5 and the next `PreInsert 3` returns 7. -/
theorem preinsert_returns_old_cursor_and_reserves_disjoint_ranges_witness :
    (PreInsert ⟨5⟩ 2).1 = 5 ∧ (PreInsert (PreInsert ⟨5⟩ 2).2 3).1 = 5 + 2 := by
  exact ⟨(preinsert_returns_old_cursor_and_reserves_disjoint_ranges ⟨5⟩ 2 3).1,
    (preinsert_returns_old_cursor_and_reserves_disjoint_ranges ⟨5⟩ 2 3).2.2.1⟩

theorem zipWith_or_absorb : ∀ (l d : List Bool),
    List.zipWith (fun a b => a || b) (List.zipWith (fun a b => a || b) l d) d =
      List.zipWith (fun a b => a || b) l d
  | [], _ => rfl
  | _ :: _, [] => rfl
  | a :: l, b :: d => by
    simp only [List.zipWith_cons_cons]
    rw [zipWith_or_absorb l d, Bool.or_assoc, Bool.or_self]

/-- C4: for a fixed segment state and fixed `(ins_barrier, ts)`, `mask_with_delete`
is idempotent — a second application to the result of a first (successful)
application returns that result unchanged — and when `barrier(ts) = 0` the bitset
is not modified at all. -/
theorem mask_with_delete_idempotent (s : SegState) (bitset : List Bool)
    (ins_barrier : Nat) (ts : Timestamp) (b' : List Bool) :
    (mask_with_delete s bitset ins_barrier ts = some b' →
      mask_with_delete s b' ins_barrier ts = some b') ∧
    (get_barrier s.deleted ts = 0 →
      mask_with_delete s bitset ins_barrier ts = some bitset) := by
  constructor
  · intro h
    unfold mask_with_delete at h ⊢
    by_cases hz : get_barrier s.deleted ts = 0
    · rw [if_pos hz] at h ⊢
    · rw [if_neg hz] at h ⊢
      by_cases hl : (get_deleted_bitmap (get_barrier s.deleted ts) ins_barrier
          s.deleted s.insertPk s.insertTs ts).length = bitset.length
      · rw [if_pos hl] at h
        have hb' : b' = bitset.zipWith (fun a b => a || b)
            (get_deleted_bitmap (get_barrier s.deleted ts) ins_barrier s.deleted
              s.insertPk s.insertTs ts) := by
          exact (Option.some_inj.mp h).symm
        subst hb'
        rw [if_pos (by rw [List.length_zipWith]; omega)]
        rw [zipWith_or_absorb]
      · rw [if_neg hl] at h
        exact absurd h (by simp)
  · intro hz
    unfold mask_with_delete
    rw [if_pos hz]

/-- Witness for C4 at a concrete input: one deletion entry visible at `ts = 5`, a
bitset of the right length; the first application sets both bits and the second
application returns the same bitset. -/
theorem mask_with_delete_idempotent_witness :
    mask_with_delete ⟨fun _ => false, fun _ => .inl 1, fun _ => 0, [(1, .inl 1)]⟩
      [false, false] 2 5 = some [true, true] ∧
    mask_with_delete ⟨fun _ => false, fun _ => .inl 1, fun _ => 0, [(1, .inl 1)]⟩
      [true, true] 2 5 = some [true, true] := by
  have h1 : mask_with_delete
      ⟨fun _ => false, fun _ => .inl 1, fun _ => 0, [(1, .inl 1)]⟩
      [false, false] 2 5 = some [true, true] := by decide
  exact ⟨h1,
    (mask_with_delete_idempotent
      ⟨fun _ => false, fun _ => .inl 1, fun _ => 0, [(1, .inl 1)]⟩
      [false, false] 2 5 [true, true]).1 h1⟩

/-- C9: whenever `barrier(ts) > 0` (so a deletion bitmap, of length `ins_barrier`, is
produced), `mask_with_delete` requires the caller's bitset length to equal
`ins_barrier`: under that precondition the internal size-equality assertion is
unreachable (the call succeeds), and a call violating it fails the assertion
(returns `none`) rather than composing a mask. -/
theorem mask_with_delete_size_precondition (s : SegState) (bitset : List Bool)
    (ins_barrier : Nat) (ts : Timestamp) :
    (bitset.length = ins_barrier →
      (mask_with_delete s bitset ins_barrier ts).isSome) ∧
    (0 < get_barrier s.deleted ts → bitset.length ≠ ins_barrier →
      mask_with_delete s bitset ins_barrier ts = none) := by
  have hlen : ∀ db, (get_deleted_bitmap db ins_barrier s.deleted s.insertPk
      s.insertTs ts).length = ins_barrier := by
    intro db
    simp [get_deleted_bitmap]
  constructor
  · intro hb
    unfold mask_with_delete
    by_cases hz : get_barrier s.deleted ts = 0
    · rw [if_pos hz]; rfl
    · rw [if_neg hz, if_pos (by rw [hlen, hb])]
      rfl
  · intro hpos hne
    unfold mask_with_delete
    rw [if_neg (Nat.pos_iff_ne_zero.mp hpos),
      if_neg (by rw [hlen]; exact fun e => hne e.symm)]

/-- Witness for C9 at concrete inputs: with one visible deletion entry, a bitset of
length `ins_barrier = 2` succeeds, and a bitset of length 1 fails the size
assertion. -/
theorem mask_with_delete_size_precondition_witness :
    (mask_with_delete ⟨fun _ => false, fun _ => .inl 1, fun _ => 0, [(1, .inl 1)]⟩
      [false, false] 2 5).isSome ∧
    mask_with_delete ⟨fun _ => false, fun _ => .inl 1, fun _ => 0, [(1, .inl 1)]⟩
      [false] 2 5 = none := by
  refine ⟨(mask_with_delete_size_precondition
      ⟨fun _ => false, fun _ => .inl 1, fun _ => 0, [(1, .inl 1)]⟩
      [false, false] 2 5).1 (by decide),
    (mask_with_delete_size_precondition
      ⟨fun _ => false, fun _ => .inl 1, fun _ => 0, [(1, .inl 1)]⟩
      [false] 2 5).2 (by decide) (by decide)⟩

/-- C2 counterexample: the claim "every position with
`seg_offsets[i] = INVALID_SEG_OFFSET` yields a zero-filled output slot ... for every
scalar data type" is false — the scalar `bulk_subscript_impl` performs no
`INVALID_SEG_OFFSET` check and copies whatever the out-of-range read at offset `-1`
returns. Here memory holding `7` at that location produces `[7]`, not `[0]`. -/
theorem bulk_subscript_scalar_invalid_offset_not_zeroed :
    bulk_subscript_scalar
      (fun o => if o = INVALID_SEG_OFFSET then (7 : Int) else 0) [-1] ≠ [0] := by
  decide

/-- C2 amended: for vector fields (chunk-copy path) an offset equal to
`INVALID_SEG_OFFSET` yields a zero-filled slot, and for array fields it leaves the
slot at its default-constructed value; the scalar and varchar/json paths perform no
such check and copy from the raw offset unconditionally. -/
theorem bulk_subscript_invalid_offset_behavior {α : Type}
    (esz : Nat) (vecv : Int → List Nat) (vecs : Int → α) (veca : Int → α)
    (seg_offsets : List Int) (dst0 : List α) (i : Nat) (o : Int) :
    (seg_offsets[i]? = some INVALID_SEG_OFFSET →
      (bulk_subscript_vec_chunk esz vecv seg_offsets)[i]? =
        some (List.replicate esz 0)) ∧
    (seg_offsets[i]? = some INVALID_SEG_OFFSET → i < dst0.length →
      (bulk_subscript_array veca seg_offsets dst0)[i]? = dst0[i]?) ∧
    (seg_offsets[i]? = some o →
      (bulk_subscript_scalar vecs seg_offsets)[i]? = some (vecs o)) ∧
    (seg_offsets[i]? = some o →
      (bulk_subscript_ptr vecs seg_offsets)[i]? = some (vecs o)) := by
  refine ⟨?_, ?_, ?_, ?_⟩
  · intro hoff
    simp [bulk_subscript_vec_chunk, hoff]
  · intro hoff hlt
    have hd : dst0[i]? = some dst0[i] := List.getElem?_eq_getElem hlt
    have hz : (seg_offsets.zip dst0)[i]? = some (INVALID_SEG_OFFSET, dst0[i]) :=
      List.getElem?_zip_eq_some.mpr ⟨hoff, hd⟩
    simp [bulk_subscript_array, hz, hd]
  · intro hoff
    simp [bulk_subscript_scalar, hoff]
  · intro hoff
    simp [bulk_subscript_ptr, hoff]

/-- Witness for the amended C2 at concrete inputs: offsets `[-1, 0]`, element size 2,
array destination with a default slot. -/
theorem bulk_subscript_invalid_offset_behavior_witness :
    (bulk_subscript_vec_chunk 2 (fun _ => [9, 9]) [-1, 0])[0]? = some [0, 0] ∧
    (bulk_subscript_array (fun _ => (5 : Int)) [-1, 0] [11, 12])[0]? =
      ([11, 12] : List Int)[0]? ∧
    (bulk_subscript_scalar (fun o => o + 1) [-1, 0])[1]? = some ((0 : Int) + 1) ∧
    (bulk_subscript_ptr (fun o => o + 1) [-1, 0])[1]? = some ((0 : Int) + 1) := by
  refine ⟨?_, ?_, ?_, ?_⟩
  · exact (bulk_subscript_invalid_offset_behavior 2 (fun _ => [9, 9])
      (fun o => o + 1) (fun _ => (5 : Int)) [-1, 0] [11, 12] 0 0).1 (by decide)
  · exact (bulk_subscript_invalid_offset_behavior 2 (fun _ => [9, 9])
      (fun o => o + 1) (fun _ => (5 : Int)) [-1, 0] [11, 12] 0 0).2.1
      (by decide) (by decide)
  · exact (bulk_subscript_invalid_offset_behavior 2 (fun _ => [9, 9])
      (fun o => o + 1) (fun _ => (5 : Int)) [-1, 0] [11, 12] 1 0).2.2.1 (by decide)
  · exact (bulk_subscript_invalid_offset_behavior 2 (fun _ => [9, 9])
      (fun o => o + 1) (fun _ => (5 : Int)) [-1, 0] [11, 12] 1 0).2.2.2 (by decide)

theorem ginv_try_remove_chunks (lockOk : Bool) (f : GField) (h : GInv f) :
    GInv (try_remove_chunks lockOk f) := by
  unfold try_remove_chunks
  by_cases hc : SyncDataWithIndex f && !f.chunks.isEmpty && lockOk
  · rw [if_pos hc]
    have hsync : f.rows ≤ f.watermark := by
      have := hc
      simp only [Bool.and_eq_true, SyncDataWithIndex, decide_eq_true_eq] at this
      exact this.1.1
    constructor
    · intro iv hiv
      cases hiv
    intro e he
    rw [List.mem_append] at he
    rcases he with he | he
    · exact h.2 e he
    · rw [List.mem_singleton] at he
      subst he
      exact ⟨hsync, fun iv hiv => le_trans (h.1 iv hiv) hsync⟩
  · rw [if_neg hc]
    exact h

theorem ginv_insertStep (n w' : Nat) (lockOk : Bool) (f : GField) (h : GInv f) :
    GInv (insertStep n w' lockOk f) := by
  unfold insertStep
  apply ginv_try_remove_chunks
  refine ⟨?_, h.2⟩
  intro iv hiv
  by_cases hs : SyncDataWithIndex f
  · rw [if_pos hs] at hiv
    exact le_trans (h.1 iv hiv) (Nat.le_add_right _ _)
  · rw [if_neg hs] at hiv
    rw [List.mem_append] at hiv
    rcases hiv with hiv | hiv
    · exact le_trans (h.1 iv hiv) (Nat.le_add_right _ _)
    · rw [List.mem_singleton] at hiv
      subst hiv
      exact Nat.le_refl _

theorem ginv_reachable (f : GField) (h : GReachable f) : GInv f := by
  unfold GReachable at h
  induction h with
  | refl =>
    constructor
    · intro iv hiv
      cases hiv
    · intro e he
      cases he
  | tail _ hstep ih =>
    cases hstep with
    | insert n w' lockOk hw1 hw2 => exact ginv_insertStep n w' lockOk _ ih
    | tryRemove lockOk => exact ginv_try_remove_chunks lockOk _ ih

/-- C6: in every reachable field state, chunks have been released only at moments
when the field was index-synced (row count at release ≤ sync watermark at release),
and every released chunk lies fully below the sync watermark at release; moreover
`try_remove_chunks` on a field that is not index-synced leaves the field (in
particular its `ConcurrentVector` chunks) unchanged. -/
theorem chunks_released_only_below_sync_watermark (f : GField) (hf : GReachable f)
    (g : GField) (lockOk : Bool) :
    (∀ e ∈ f.releases, e.2.1 ≤ e.1 ∧ ∀ iv ∈ e.2.2, iv.2 ≤ e.1) ∧
    (SyncDataWithIndex g = false → try_remove_chunks lockOk g = g) := by
  constructor
  · exact (ginv_reachable f hf).2
  · intro hs
    unfold try_remove_chunks
    rw [if_neg (by simp [hs])]

/-- Witness for C6: a state reached by inserting 3 rows (watermark 0, lock free) has
an empty release log, and `try_remove_chunks` on that non-synced state changes
nothing. -/
theorem chunks_released_only_below_sync_watermark_witness :
    (∀ e ∈ (insertStep 3 0 true GField.init).releases,
      e.2.1 ≤ e.1 ∧ ∀ iv ∈ e.2.2, iv.2 ≤ e.1) ∧
    try_remove_chunks true (insertStep 3 0 true GField.init) =
      insertStep 3 0 true GField.init := by
  have hreach : GReachable (insertStep 3 0 true GField.init) :=
    Relation.ReflTransGen.single
      (GStep.insert 3 0 true GField.init (Nat.le_refl 0) (Nat.zero_le 3))
  have := chunks_released_only_below_sync_watermark
    (insertStep 3 0 true GField.init) hreach
    (insertStep 3 0 true GField.init) true
  exact ⟨this.1, this.2 (by decide)⟩

/-- C3 (code bug): `Build` and `BuildWithDataset` surface `IndexBuildError` on a
failed engine build and leave the staged raw-data directory in place, removing it
only on success; `BuildV2` however discards the engine's build status: at the same
failing input it surfaces no error and removes the staged raw-data directory
anyway. -/
theorem buildv2_swallows_engine_build_failure :
    (Build (.notSuccess 1) ⟨false, []⟩).1 = some .IndexBuildError ∧
    (Build (.notSuccess 1) ⟨false, []⟩).2.rawDataDirPresent = true ∧
    (Build .success ⟨false, []⟩).1 = none ∧
    (Build .success ⟨false, []⟩).2.rawDataDirPresent = false ∧
    (BuildWithDataset (.notSuccess 1) 4 2 4 (List.replicate 32 0)
      ⟨false, []⟩).1 = some .IndexBuildError ∧
    (BuildWithDataset (.notSuccess 1) 4 2 4 (List.replicate 32 0)
      ⟨false, []⟩).2.rawDataDirPresent = true ∧
    (BuildV2 (.notSuccess 1) ⟨false, []⟩).1 = none ∧
    (BuildV2 (.notSuccess 1) ⟨false, []⟩).2.rawDataDirPresent = false := by
  refine ⟨rfl, rfl, rfl, rfl, rfl, rfl, rfl, rfl⟩

/-- C7 counterexample: the staged payload length is the `uint32` product
`num * dim` taken mod `2^32`, times `sizeof(T)` — not `num * dim * sizeof(T)`. At
`num = dim = 2^16` (a well-formed float dataset of `2^34` tensor bytes) the product
overflows to 0 and the staged file is just the 8 header bytes, not
`8 + num * dim * 4` bytes. -/
theorem stage_raw_data_u32_overflow :
    stageRawData 4 (2 ^ 16) (2 ^ 16) (List.replicate (2 ^ 34) 0) ≠
      le32 (2 ^ 16) ++ le32 (2 ^ 16) ++ List.replicate (2 ^ 34) 0 := by
  have hk : (2 ^ 16 % 2 ^ 32) * (2 ^ 16 % 2 ^ 32) % 2 ^ 32 * 4 = 0 := by norm_num
  have h1 : (stageRawData 4 (2 ^ 16) (2 ^ 16)
      (List.replicate (2 ^ 34) 0)).length = 8 := by
    simp only [stageRawData, hk, List.take_zero]
    simp [le32]
  have h2 : (le32 (2 ^ 16) ++ le32 (2 ^ 16) ++
      List.replicate (2 ^ 34) (0 : Nat)).length = 8 + 2 ^ 34 := by
    rw [List.length_append, List.length_append, List.length_replicate]
    norm_num [le32]
  intro h
  rw [h, h2] at h1
  norm_num at h1

/-- C7 amended: whenever the `uint32` quantities do not overflow
(`rows < 2^32`, `dim < 2^32`, `rows * dim < 2^32`) and the tensor is the dataset's
contiguous `rows * dim * sizeof(T)`-byte buffer, `BuildWithDataset` stages the
raw-data file exactly as claimed: little-endian u32 `rows` at byte offset 0,
little-endian u32 `dim` at byte offset 4, then the `rows * dim * sizeof(T)` payload
bytes from byte offset 8 on, contiguous, with nothing after them (no padding, no
checksum). -/
theorem stage_raw_data_layout (sizeofT rows dim : Nat) (tensor : List Nat)
    (hr : rows < 2 ^ 32) (hd : dim < 2 ^ 32) (hrd : rows * dim < 2 ^ 32)
    (hlen : tensor.length = rows * dim * sizeofT) :
    stageRawData sizeofT rows dim tensor = le32 rows ++ le32 dim ++ tensor ∧
    (stageRawData sizeofT rows dim tensor).length = 8 + rows * dim * sizeofT ∧
    (stageRawData sizeofT rows dim tensor).take 4 = le32 rows ∧
    ((stageRawData sizeofT rows dim tensor).drop 4).take 4 = le32 dim ∧
    (stageRawData sizeofT rows dim tensor).drop 8 = tensor := by
  have e : stageRawData sizeofT rows dim tensor = le32 rows ++ le32 dim ++ tensor := by
    simp only [stageRawData, Nat.mod_eq_of_lt hr, Nat.mod_eq_of_lt hd,
      Nat.mod_eq_of_lt hrd]
    rw [← hlen, List.take_length]
  refine ⟨e, ?_, ?_, ?_, ?_⟩ <;> rw [e] <;> simp [le32, hlen] <;> try omega

/-- Witness for the amended C7: a dataset of 2 rows, dimension 4, float elements
(`sizeof(T) = 4`), with a 32-byte tensor. -/
theorem stage_raw_data_layout_witness :
    stageRawData 4 2 4 (List.replicate 32 7) =
      le32 2 ++ le32 4 ++ List.replicate 32 7 ∧
    (stageRawData 4 2 4 (List.replicate 32 7)).drop 8 = List.replicate 32 7 := by
  have h := stage_raw_data_layout 4 2 4 (List.replicate 32 7)
    (by norm_num) (by norm_num) (by norm_num) (by simp)
  exact ⟨h.1, h.2.2.2.2⟩

theorem roundLoop_apply (m : ℚ) : ∀ (total : Nat) (buf : Nat → ℚ) (i : Nat),
    roundLoop m total buf i = if i < total then roundDist m (buf i) else buf i := by
  intro total
  induction total with
  | zero =>
    intro buf i
    simp [roundLoop]
  | succ n ih =>
    intro buf i
    simp only [roundLoop]
    by_cases hi : i = n
    · subst hi
      rw [if_pos rfl, ih, if_neg (Nat.lt_irrefl i), if_pos (Nat.lt_succ_self i)]
    · rw [if_neg hi, ih]
      by_cases h2 : i < n
      · rw [if_pos h2, if_pos (Nat.lt_succ_of_lt h2)]
      · rw [if_neg h2, if_neg (by omega)]

/-- C8: the `Query` result holds `nq * topk` distances; with
`round_decimal = -1` each is exactly the engine's distance, and with
`round_decimal = d ≠ -1` each is replaced in place by
`round(x * 10^d) / 10^d` (exact arithmetic model of the float computation). -/
theorem query_rounds_distances_iff_round_decimal_set (rd : Int)
    (nq topk : Nat) (ids : Nat → Int) (dists : Nat → ℚ) :
    (rd = -1 → (QueryResult rd nq topk ids dists).distances =
      (List.range (nq * topk)).map dists) ∧
    (rd ≠ -1 → (QueryResult rd nq topk ids dists).distances =
      (List.range (nq * topk)).map fun i =>
        (round (dists i * (10 : ℚ) ^ rd) : ℚ) / (10 : ℚ) ^ rd) ∧
    (QueryResult rd nq topk ids dists).seg_offsets =
      (List.range (nq * topk)).map ids ∧
    (QueryResult rd nq topk ids dists).distances.length = nq * topk := by
  refine ⟨?_, ?_, rfl, ?_⟩
  · intro h
    subst h
    simp [QueryResult]
  · intro h
    simp only [QueryResult, if_pos h]
    apply List.map_congr_left
    intro i hi
    rw [List.mem_range] at hi
    rw [roundLoop_apply, if_pos hi, roundDist]
  · simp [QueryResult]

/-- Witness for C8 at concrete inputs: one query, one hit; with
`round_decimal = 2` the distance `1.234` becomes `1.23`, and with
`round_decimal = -1` it is returned untouched. -/
theorem query_rounds_distances_iff_round_decimal_set_witness :
    (QueryResult 2 1 1 (fun _ => 0) (fun _ => (1234 : ℚ) / 1000)).distances =
      [(123 : ℚ) / 100] ∧
    (QueryResult (-1) 1 1 (fun _ => 0) (fun _ => (1234 : ℚ) / 1000)).distances =
      [(1234 : ℚ) / 1000] := by
  constructor
  · rw [(query_rounds_distances_iff_round_decimal_set 2 1 1 (fun _ => 0)
      (fun _ => (1234 : ℚ) / 1000)).2.1 (by decide)]
    norm_num [round_eq]
  · rw [(query_rounds_distances_iff_round_decimal_set (-1) 1 1 (fun _ => 0)
      (fun _ => (1234 : ℚ) / 1000)).1 rfl]
    simp

/-- C10: on a successful engine reply, `GetVector` returns a buffer of exactly
`dim / 8 * row_num` bytes for binary-list index types and
`dim * row_num * sizeof(float) = dim * row_num * 4` bytes otherwise — independent
of the element size of the template instantiation `T` (float, float16, bfloat16
alike). -/
theorem getvector_buffer_size (isInBinList : Bool) (sizeofT row_num dim : Nat)
    (tensor : Nat → Nat) :
    (∃ l, GetVector isInBinList sizeofT (some (row_num, dim, tensor)) = .ok l ∧
      l.length = if isInBinList then dim / 8 * row_num
                 else dim * row_num * 4) ∧
    (∀ sizeofT2, GetVector isInBinList sizeofT (some (row_num, dim, tensor)) =
      GetVector isInBinList sizeofT2 (some (row_num, dim, tensor))) := by
  refine ⟨⟨_, rfl, by simp [GetVector]⟩, fun _ => rfl⟩

/-- Witness for C10 at a concrete input: a non-binary reply with 3 rows of dimension
16 yields the same buffer for the float (`sizeof(T) = 4`) and float16
(`sizeof(T) = 2`) instantiations. -/
theorem getvector_buffer_size_witness :
    GetVector false 4 (some (3, 16, fun _ => 9)) =
      GetVector false 2 (some (3, 16, fun _ => 9)) := by
  exact (getvector_buffer_size false 4 3 16 (fun _ => 9)).2 2

end Milvus
